import Mathlib

/-!
caddy-on-demand-tls-pg: the domain existence check.

A shallow embedding of `main.go`: the request handler built by `handler(queries, db)`
and the start-up sequence of `main`. Every call the Go code makes on one of its
collaborators (the fasthttp request context, the pgx batch and batch results, standard
error, the pool constructor, the listener) is recorded as one event, in program order,
so that the response, the log and the use of the database can be read off the trace.
-/

namespace OnDemandTlsPg

/-! ## Data model -/

/-- What `batchResults.QueryRow().Scan(&exists)` yields for one statement: a read
error carrying its detail (`err.Error()`), or the scanned boolean. -/
inductive ScanResult where
  | err (detail : String)
  | ok (exists_ : Bool)
deriving DecidableEq, Repr

/-- One `batch.Queue(query, arguments...)` entry of a `pgx.Batch`. -/
structure batchItem where
  query : String
  arguments : List String
deriving DecidableEq, Repr

/-- The items of a `pgx.Batch`, in queueing order. -/
abbrev Batch := List batchItem

/-- Go: `batch.Queue(query, arguments...)` appends one item to the batch. -/
def Batch.Queue (batch : Batch) (query : String) (arguments : List String) : Batch :=
  batch ++ [⟨query, arguments⟩]

/-- The pool `db`, seen through the one method the handler calls: `SendBatch` maps the
submitted batch to the stream of per-statement results, in submission order. -/
structure Pool where
  SendBatch : Batch → List ScanResult

/-- The calls the handler makes on its collaborators. -/
inductive Event where
  | SetStatusCode (code : Nat)
  | WriteString (s : String)
  | Queue (query : String) (arguments : List String)
  | SendBatch (batch : Batch)
  | QueryRowScan (result : ScanResult)
  | Fprintln (line : String)
  | Close
deriving DecidableEq, Repr

/-- The part of `fasthttp.RequestCtx` the handler reads: the decoded query arguments. -/
structure RequestCtx where
  QueryArgs : List (String × String)

/-- Go: `string(ctx.QueryArgs().Peek(key))`. `Peek` returns the value of the first
argument named `key` and nil when there is none; `string(nil)` is the empty string. -/
def Peek (args : List (String × String)) (key : String) : String :=
  (args.lookup key).getD ""

/-- Go: `strings.ToLower(s)`, which maps every rune of `s` through `unicode.ToLower`.
The rune mapping belongs to the Go standard library and is the parameter `lower`;
`unicodeToLower` is that mapping. -/
def ToLower (lower : Char → Char) (s : String) : String :=
  ⟨s.data.map lower⟩

/-- Go: `unicode.ToLower(r)`. For `r <= unicode.MaxASCII` (127) the library computes the
result itself: a rune in `'A'..'Z'` (65..90) is shifted by `'a' - 'A'` (32) and every
other rune is returned unchanged. Above 127 it looks the rune up in the Unicode case
tables, which are the parameter `caseTable`. -/
def unicodeToLower (caseTable : Char → Char) (r : Char) : Char :=
  if r.toNat ≤ 127 then
    if 65 ≤ r.toNat ∧ r.toNat ≤ 90 then Char.ofNat (r.toNat + 32) else r
  else caseTable r

/-! ## The request handler -/

/-- Go (`main.go:29-32`): `batch := &pgx.Batch{}; for _, query := range queries
{ batch.Queue(query, domain) }`. Returns the batch and the `Queue` calls made. -/
def queueLoop (domain : String) : List String → Batch → Batch × List Event
  | [], batch => (batch, [])
  | query :: rest, batch =>
    let r := queueLoop domain rest (batch.Queue query [domain])
    (r.1, Event.Queue query [domain] :: r.2)

/-- Go: `batchResults.QueryRow().Scan(&exists)` reads the next result of the stream.
Past the last result pgx reports the error "no result". -/
def QueryRowScan : List ScanResult → ScanResult × List ScanResult
  | [] => (ScanResult.err "no result", [])
  | r :: rest => (r, rest)

/-- Go (`main.go:37-53`): `for range queries { ... }`. One iteration per query reads the
next result; a read error logs and answers 500, a true answers 204, and both return
from the handler. The boolean tells whether the handler returned inside the loop. -/
def scanLoop : List String → List ScanResult → List Event × Bool
  | [], _ => ([], false)
  | _ :: rest, batchResults =>
    match QueryRowScan batchResults with
    | (ScanResult.err detail, _) =>
      ([Event.QueryRowScan (ScanResult.err detail),
        Event.Fprintln ("failed to execute query: " ++ detail ++ "\n"),
        Event.SetStatusCode 500,
        Event.WriteString "internal server error"], true)
    | (ScanResult.ok true, _) =>
      ([Event.QueryRowScan (ScanResult.ok true), Event.SetStatusCode 204], true)
    | (ScanResult.ok false, batchResults') =>
      let r := scanLoop rest batchResults'
      (Event.QueryRowScan (ScanResult.ok false) :: r.1, r.2)

/-- Go (`main.go:17-59`): the closure returned by `handler(queries, db)`, run on one
request; the result is the trace of calls it makes. The deferred
`batchResults.Close()` runs when the closure returns after `SendBatch`. -/
def handler (lower : Char → Char) (queries : List String) (db : Pool)
    (ctx : RequestCtx) : List Event :=
  let domain := Peek ctx.QueryArgs "domain"
  if domain = "" then
    [Event.SetStatusCode 400, Event.WriteString "domain query parameter cannot be empty"]
  else
    let domain := ToLower lower domain
    let b := queueLoop domain queries []
    let batchResults := db.SendBatch b.1
    let l := scanLoop queries batchResults
    let rest :=
      if l.2 then l.1
      else l.1 ++ [Event.SetStatusCode 404, Event.WriteString "domain not found"]
    b.2 ++ [Event.SendBatch b.1] ++ rest ++ [Event.Close]

/-! ## Start-up -/

/-- Go: `type oneOf struct`. -/
structure oneOf where
  TableName : String
  Column : String
deriving DecidableEq, Repr

/-- Go: `type config struct`. -/
structure config where
  PostgresURI : String
  OneOf : List oneOf
deriving DecidableEq, Repr

/-- Go (`main.go:103-117`): the loop of `main` that builds one query per `one_of`
entry; a `panic` is the error carrying its message. -/
def buildQueries : List oneOf → Except String (List String)
  | [] => Except.ok []
  | o :: rest =>
    let tableName := o.TableName
    let column := o.Column
    if tableName = "" then Except.error "table_name cannot be empty"
    else if column = "" then Except.error "column cannot be empty"
    else
      match buildQueries rest with
      | Except.error e => Except.error e
      | Except.ok queries =>
        Except.ok
          (("SELECT EXISTS (SELECT 1 FROM " ++ tableName ++ " WHERE " ++ column ++ " = $1)")
            :: queries)

/-- The collaborators of `main` after the configuration is loaded: the pool constructor
`pgxpool.Connect`, the `HOST` environment variable, `net.Listen` (the bound address or
an error) and the outcome of `fasthttp.Serve` (nil or an error). -/
structure Os where
  Connect : String → Except String Pool
  HOST : String
  Listen : String → Except String String
  Serve : Option String

/-- The calls `main` makes on its collaborators once the configuration is loaded. -/
inductive StartupEvent where
  | Connect (connString : String)
  | Listen (host : String)
  | Println (line : String)
  | Serve (queries : List String)
deriving DecidableEq, Repr

/-- Go (`main.go:98-146`): `main` from the loaded configuration on. The result is the
trace of calls made and the panic message, if `main` panicked. -/
def main (conf : config) (os : Os) : List StartupEvent × Option String :=
  match buildQueries conf.OneOf with
  | Except.error msg => ([], some msg)
  | Except.ok queries =>
    let connString := conf.PostgresURI
    if connString = "" then ([], some "postgres_uri cannot be empty")
    else
      match os.Connect connString with
      | Except.error e => ([StartupEvent.Connect connString], some e)
      | Except.ok _ =>
        let host := if os.HOST = "" then ":8383" else os.HOST
        match os.Listen host with
        | Except.error e =>
          ([StartupEvent.Connect connString, StartupEvent.Listen host], some e)
        | Except.ok addr =>
          let evs := [StartupEvent.Connect connString, StartupEvent.Listen host,
            StartupEvent.Println ("ðŸš€ Listening on " ++ addr ++ "\n"),
            StartupEvent.Serve queries]
          match os.Serve with
          | some e => (evs, some e)
          | none => (evs, none)

/-! ## Observations on a handler trace -/

/-- The status codes set on the response, in order. -/
def statusCodes (tr : List Event) : List Nat :=
  tr.filterMap fun e => match e with
    | Event.SetStatusCode c => some c
    | _ => none

/-- The status of the response: the last code set, fasthttp's default 200 otherwise. -/
def statusCode (tr : List Event) : Nat :=
  (statusCodes tr).getLast?.getD 200

/-- The chunks written to the response body, in order. -/
def writes (tr : List Event) : List String :=
  tr.filterMap fun e => match e with
    | Event.WriteString s => some s
    | _ => none

/-- The response body. -/
def body (tr : List Event) : String :=
  String.join (writes tr)

/-- The lines written to standard error. -/
def stderr (tr : List Event) : List String :=
  tr.filterMap fun e => match e with
    | Event.Fprintln l => some l
    | _ => none

/-- The statements queued on a batch. -/
def queued (tr : List Event) : List batchItem :=
  tr.filterMap fun e => match e with
    | Event.Queue q a => some ⟨q, a⟩
    | _ => none

/-- The batches sent to the pool. -/
def sent (tr : List Event) : List Batch :=
  tr.filterMap fun e => match e with
    | Event.SendBatch b => some b
    | _ => none

/-- The results read from the batch result stream, in reading order. -/
def scans (tr : List Event) : List ScanResult :=
  tr.filterMap fun e => match e with
    | Event.QueryRowScan r => some r
    | _ => none

/-- The number of times the batch result stream was released. -/
def closes (tr : List Event) : Nat :=
  tr.count Event.Close

/-- The batch in which every query is bound to the single argument `key`. -/
def boundTo (key : String) (queries : List String) : Batch :=
  queries.map fun q => ⟨q, [key]⟩


/-- The key of a request: its `domain` argument, lower-cased. -/
def lookupKey (lower : Char → Char) (ctx : RequestCtx) : String :=
  ToLower lower (Peek ctx.QueryArgs "domain")

/-- The per-statement results the pool streams back for the batch of a request. -/
def resultsOf (lower : Char → Char) (queries : List String) (db : Pool)
    (ctx : RequestCtx) : List ScanResult :=
  db.SendBatch (boundTo (lookupKey lower ctx) queries)

/-- Two runes are the same letter up to case when they are equal, when one is an ASCII
capital (65..90) and the other is that letter 32 code points higher, or when both lie
above ASCII and the Unicode case tables give them one lower-case form. -/
def sameLetter (caseTable : Char → Char) (c c' : Char) : Bool :=
  decide (c = c')
    || decide (65 ≤ c.toNat ∧ c.toNat ≤ 90 ∧ c'.toNat = c.toNat + 32)
    || decide (65 ≤ c'.toNat ∧ c'.toNat ≤ 90 ∧ c.toNat = c'.toNat + 32)
    || decide (127 < c.toNat ∧ 127 < c'.toNat ∧ caseTable c = caseTable c')

/-- Two rune sequences differ only in letter case: they have the same length and
their runes are pairwise the same letter up to case. -/
def differOnlyInCase (caseTable : Char → Char) : List Char → List Char → Bool
  | [], [] => true
  | c :: cs, c' :: cs' => sameLetter caseTable c c' && differOnlyInCase caseTable cs cs'
  | _, _ => false

/-! ## Concrete configurations and pools used to exercise the handler -/

/-- The configuration entries `users.domain` then `blocked.domain`. -/
def scenarioSpecs : List oneOf :=
  [⟨"users", "domain"⟩, ⟨"blocked", "domain"⟩]

/-- The two statements `main` builds for `scenarioSpecs`. -/
def scenarioQueries : List String :=
  ["SELECT EXISTS (SELECT 1 FROM users WHERE domain = $1)",
   "SELECT EXISTS (SELECT 1 FROM blocked WHERE domain = $1)"]

/-- A database in which `users` has no row and `blocked` has the one row
`domain = 'test.com'`: a statement yields true exactly when it is the `blocked`
statement bound to the single argument `test.com`. -/
def scenarioDb : Pool :=
  ⟨fun batch => batch.map fun item =>
    ScanResult.ok (decide (item.query
        = "SELECT EXISTS (SELECT 1 FROM blocked WHERE domain = $1)"
      ∧ item.arguments = ["test.com"]))⟩

/-- A pool that streams back the given results whatever the batch. -/
def fixedDb (results : List ScanResult) : Pool :=
  ⟨fun _ => results⟩

/-- A request whose only query argument is `domain=<value>`. -/
def domainRequest (value : String) : RequestCtx :=
  ⟨[("domain", value)]⟩

/-! ## Lemmas on the loops -/

theorem queueLoop_eq (domain : String) (queries : List String) (batch : Batch) :
    queueLoop domain queries batch
      = (batch ++ boundTo domain queries, queries.map fun q => Event.Queue q [domain]) := by
  induction queries generalizing batch with
  | nil => simp [queueLoop, boundTo]
  | cons q qs ih => simp [queueLoop, ih, boundTo, Batch.Queue]

theorem scanLoop_all_false (queries : List String) (results : List ScanResult)
    (hlen : results.length = queries.length)
    (hall : ∀ r ∈ results, r = ScanResult.ok false) :
    scanLoop queries results = (results.map Event.QueryRowScan, false) := by
  induction queries generalizing results with
  | nil =>
    cases results with
    | nil => simp [scanLoop]
    | cons r rs => simp at hlen
  | cons q qs ih =>
    cases results with
    | nil => simp at hlen
    | cons r rs =>
      have hr : r = ScanResult.ok false := hall r (by simp)
      subst hr
      have := ih rs (by simpa using hlen) (fun x hx => hall x (by simp [hx]))
      simp [scanLoop, QueryRowScan, this]

theorem scanLoop_first_true (k : Nat) (queries : List String) (results : List ScanResult)
    (hq : k < queries.length)
    (hk : results[k]? = some (ScanResult.ok true))
    (hpre : ∀ j, j < k → results[j]? = some (ScanResult.ok false)) :
    scanLoop queries results
      = ((results.take k).map Event.QueryRowScan
          ++ [Event.QueryRowScan (ScanResult.ok true), Event.SetStatusCode 204], true) := by
  induction k generalizing queries results with
  | zero =>
    cases queries with
    | nil => simp at hq
    | cons q qs =>
      cases results with
      | nil => simp at hk
      | cons r rs =>
        simp at hk
        subst hk
        simp [scanLoop, QueryRowScan]
  | succ k ih =>
    cases queries with
    | nil => simp at hq
    | cons q qs =>
      cases results with
      | nil => simp at hk
      | cons r rs =>
        have h0 := hpre 0 (Nat.succ_pos k)
        simp at h0
        subst h0
        have := ih qs rs (by simpa using hq) (by simpa using hk)
          (fun j hj => by simpa using hpre (j + 1) (Nat.succ_lt_succ hj))
        simp [scanLoop, QueryRowScan, this]

theorem scanLoop_first_err (k : Nat) (detail : String) (queries : List String)
    (results : List ScanResult)
    (hq : k < queries.length)
    (hk : results[k]? = some (ScanResult.err detail))
    (hpre : ∀ j, j < k → results[j]? = some (ScanResult.ok false)) :
    scanLoop queries results
      = ((results.take k).map Event.QueryRowScan
          ++ [Event.QueryRowScan (ScanResult.err detail),
              Event.Fprintln ("failed to execute query: " ++ detail ++ "\n"),
              Event.SetStatusCode 500,
              Event.WriteString "internal server error"], true) := by
  induction k generalizing queries results with
  | zero =>
    cases queries with
    | nil => simp at hq
    | cons q qs =>
      cases results with
      | nil => simp at hk
      | cons r rs =>
        simp at hk
        subst hk
        simp [scanLoop, QueryRowScan]
  | succ k ih =>
    cases queries with
    | nil => simp at hq
    | cons q qs =>
      cases results with
      | nil => simp at hk
      | cons r rs =>
        have h0 := hpre 0 (Nat.succ_pos k)
        simp at h0
        subst h0
        have := ih qs rs (by simpa using hq) (by simpa using hk)
          (fun j hj => by simpa using hpre (j + 1) (Nat.succ_lt_succ hj))
        simp [scanLoop, QueryRowScan, this]

/-! ## The trace of the handler on each path -/

theorem handler_empty (lower : Char → Char) (queries : List String) (db : Pool)
    (ctx : RequestCtx) (h : Peek ctx.QueryArgs "domain" = "") :
    handler lower queries db ctx
      = [Event.SetStatusCode 400,
         Event.WriteString "domain query parameter cannot be empty"] := by
  simp [handler, h]

theorem handler_nonempty (lower : Char → Char) (queries : List String) (db : Pool)
    (ctx : RequestCtx) (h : Peek ctx.QueryArgs "domain" ≠ "") :
    handler lower queries db ctx
      = (queries.map fun q => Event.Queue q [ToLower lower (Peek ctx.QueryArgs "domain")])
        ++ [Event.SendBatch (boundTo (ToLower lower (Peek ctx.QueryArgs "domain")) queries)]
        ++ (if (scanLoop queries (db.SendBatch
                (boundTo (ToLower lower (Peek ctx.QueryArgs "domain")) queries))).2
            then (scanLoop queries (db.SendBatch
                (boundTo (ToLower lower (Peek ctx.QueryArgs "domain")) queries))).1
            else (scanLoop queries (db.SendBatch
                (boundTo (ToLower lower (Peek ctx.QueryArgs "domain")) queries))).1
              ++ [Event.SetStatusCode 404, Event.WriteString "domain not found"])
        ++ [Event.Close] := by
  simp [handler, h, queueLoop_eq]

theorem filterMap_map_none {α β γ : Type} (f : β → Option γ) (g : α → β) (l : List α)
    (h : ∀ a, f (g a) = none) : (l.map g).filterMap f = [] := by
  induction l with
  | nil => rfl
  | cons a l ih => simp [List.filterMap_cons, h a, ih]

theorem count_map_zero {α : Type} (g : α → Event) (l : List α)
    (h : ∀ a, g a ≠ Event.Close) : (l.map g).count Event.Close = 0 := by
  induction l with
  | nil => rfl
  | cons a l ih =>
    have := h a
    simp_all [List.count_cons]

theorem ToLower_ne_empty (lower : Char → Char) (s : String) (h : s ≠ "") :
    ToLower lower s ≠ "" := by
  intro hl
  apply h
  have h1 : (ToLower lower s).data = [] := by rw [hl]
  have h2 : s.data = [] := by simpa [ToLower] using h1
  cases s
  simp_all

theorem statusCodes_append (a b : List Event) : statusCodes (a ++ b) = statusCodes a ++ statusCodes b := by
  simp [statusCodes, List.filterMap_append]

theorem statusCodes_map_Queue (d : String) (qs : List String) :
    statusCodes (qs.map fun q => Event.Queue q [d]) = [] :=
  filterMap_map_none _ _ qs (fun _ => rfl)

theorem statusCodes_map_QueryRowScan (rs : List ScanResult) :
    statusCodes (rs.map Event.QueryRowScan) = [] :=
  filterMap_map_none _ _ rs (fun _ => rfl)

theorem writes_append (a b : List Event) : writes (a ++ b) = writes a ++ writes b := by
  simp [writes, List.filterMap_append]

theorem writes_map_Queue (d : String) (qs : List String) :
    writes (qs.map fun q => Event.Queue q [d]) = [] :=
  filterMap_map_none _ _ qs (fun _ => rfl)

theorem writes_map_QueryRowScan (rs : List ScanResult) :
    writes (rs.map Event.QueryRowScan) = [] :=
  filterMap_map_none _ _ rs (fun _ => rfl)

theorem stderr_append (a b : List Event) : stderr (a ++ b) = stderr a ++ stderr b := by
  simp [stderr, List.filterMap_append]

theorem stderr_map_Queue (d : String) (qs : List String) :
    stderr (qs.map fun q => Event.Queue q [d]) = [] :=
  filterMap_map_none _ _ qs (fun _ => rfl)

theorem stderr_map_QueryRowScan (rs : List ScanResult) :
    stderr (rs.map Event.QueryRowScan) = [] :=
  filterMap_map_none _ _ rs (fun _ => rfl)

theorem queued_append (a b : List Event) : queued (a ++ b) = queued a ++ queued b := by
  simp [queued, List.filterMap_append]

theorem queued_map_QueryRowScan (rs : List ScanResult) :
    queued (rs.map Event.QueryRowScan) = [] :=
  filterMap_map_none _ _ rs (fun _ => rfl)

theorem sent_append (a b : List Event) : sent (a ++ b) = sent a ++ sent b := by
  simp [sent, List.filterMap_append]

theorem sent_map_Queue (d : String) (qs : List String) :
    sent (qs.map fun q => Event.Queue q [d]) = [] :=
  filterMap_map_none _ _ qs (fun _ => rfl)

theorem sent_map_QueryRowScan (rs : List ScanResult) :
    sent (rs.map Event.QueryRowScan) = [] :=
  filterMap_map_none _ _ rs (fun _ => rfl)

theorem scans_append (a b : List Event) : scans (a ++ b) = scans a ++ scans b := by
  simp [scans, List.filterMap_append]

theorem scans_map_Queue (d : String) (qs : List String) :
    scans (qs.map fun q => Event.Queue q [d]) = [] :=
  filterMap_map_none _ _ qs (fun _ => rfl)

theorem queued_map_Queue (d : String) (qs : List String) :
    queued (qs.map fun q => Event.Queue q [d]) = boundTo d qs := by
  induction qs with
  | nil => rfl
  | cons q qs ih =>
    simp only [queued, boundTo, List.map_cons, List.filterMap_cons] at ih ⊢
    rw [ih]

theorem scans_map_QueryRowScan (rs : List ScanResult) :
    scans (rs.map Event.QueryRowScan) = rs := by
  induction rs with
  | nil => rfl
  | cons r rs ih =>
    simp only [scans, List.map_cons, List.filterMap_cons] at ih ⊢
    rw [ih]

theorem closes_append (a b : List Event) : closes (a ++ b) = closes a + closes b := by
  simp [closes, List.count_append]

theorem closes_map_Queue (d : String) (qs : List String) :
    closes (qs.map fun q => Event.Queue q [d]) = 0 :=
  count_map_zero _ qs (fun _ => by simp)

theorem closes_map_QueryRowScan (rs : List ScanResult) :
    closes (rs.map Event.QueryRowScan) = 0 :=
  count_map_zero _ rs (fun _ => by simp)

theorem take_succ_of_getElem? {α : Type} (l : List α) (k : Nat) (a : α)
    (h : l[k]? = some a) : l.take (k + 1) = l.take k ++ [a] := by
  rw [List.take_succ, h]
  rfl

theorem statusCodes_cons (e : Event) (l : List Event) :
    statusCodes (e :: l) = (match e with
      | Event.SetStatusCode c => [c]
      | _ => []) ++ statusCodes l := by
  cases e <;> rfl

theorem statusCodes_nil : statusCodes [] = [] := rfl

theorem writes_cons (e : Event) (l : List Event) :
    writes (e :: l) = (match e with
      | Event.WriteString s => [s]
      | _ => []) ++ writes l := by
  cases e <;> rfl

theorem writes_nil : writes [] = [] := rfl

theorem stderr_cons (e : Event) (l : List Event) :
    stderr (e :: l) = (match e with
      | Event.Fprintln l => [l]
      | _ => []) ++ stderr l := by
  cases e <;> rfl

theorem stderr_nil : stderr [] = [] := rfl

theorem queued_cons (e : Event) (l : List Event) :
    queued (e :: l) = (match e with
      | Event.Queue q a => [(⟨q, a⟩ : batchItem)]
      | _ => []) ++ queued l := by
  cases e <;> rfl

theorem queued_nil : queued [] = [] := rfl

theorem sent_cons (e : Event) (l : List Event) :
    sent (e :: l) = (match e with
      | Event.SendBatch b => [b]
      | _ => []) ++ sent l := by
  cases e <;> rfl

theorem sent_nil : sent [] = [] := rfl

theorem scans_cons (e : Event) (l : List Event) :
    scans (e :: l) = (match e with
      | Event.QueryRowScan r => [r]
      | _ => []) ++ scans l := by
  cases e <;> rfl

theorem scans_nil : scans [] = [] := rfl

theorem closes_cons (e : Event) (l : List Event) :
    closes (e :: l) = (match e with
      | Event.Close => 1
      | _ => 0) + closes l := by
  cases e <;> simp [closes, List.count_cons, Nat.add_comm]

theorem closes_nil : closes [] = 0 := rfl

/-! ## What each path of the handler does -/

theorem trace_first_true (lower : Char → Char) (queries : List String) (db : Pool)
    (ctx : RequestCtx) (hne : Peek ctx.QueryArgs "domain" ≠ "") (k : Nat)
    (hq : k < queries.length)
    (hk : (resultsOf lower queries db ctx)[k]? = some (ScanResult.ok true))
    (hpre : ∀ j, j < k → (resultsOf lower queries db ctx)[j]? = some (ScanResult.ok false)) :
    handler lower queries db ctx
      = (queries.map fun q => Event.Queue q [lookupKey lower ctx])
        ++ [Event.SendBatch (boundTo (lookupKey lower ctx) queries)]
        ++ (((resultsOf lower queries db ctx).take k).map Event.QueryRowScan
            ++ [Event.QueryRowScan (ScanResult.ok true), Event.SetStatusCode 204])
        ++ [Event.Close] := by
  rw [handler_nonempty lower queries db ctx hne]
  simp only [resultsOf, lookupKey] at hk hpre ⊢
  rw [scanLoop_first_true k queries _ hq hk hpre]
  simp only [if_true]

theorem trace_first_err (lower : Char → Char) (queries : List String) (db : Pool)
    (ctx : RequestCtx) (hne : Peek ctx.QueryArgs "domain" ≠ "") (k : Nat) (detail : String)
    (hq : k < queries.length)
    (hk : (resultsOf lower queries db ctx)[k]? = some (ScanResult.err detail))
    (hpre : ∀ j, j < k → (resultsOf lower queries db ctx)[j]? = some (ScanResult.ok false)) :
    handler lower queries db ctx
      = (queries.map fun q => Event.Queue q [lookupKey lower ctx])
        ++ [Event.SendBatch (boundTo (lookupKey lower ctx) queries)]
        ++ (((resultsOf lower queries db ctx).take k).map Event.QueryRowScan
            ++ [Event.QueryRowScan (ScanResult.err detail),
                Event.Fprintln ("failed to execute query: " ++ detail ++ "\n"),
                Event.SetStatusCode 500,
                Event.WriteString "internal server error"])
        ++ [Event.Close] := by
  rw [handler_nonempty lower queries db ctx hne]
  simp only [resultsOf, lookupKey] at hk hpre ⊢
  rw [scanLoop_first_err k detail queries _ hq hk hpre]
  simp only [if_true]

theorem trace_all_false (lower : Char → Char) (queries : List String) (db : Pool)
    (ctx : RequestCtx) (hne : Peek ctx.QueryArgs "domain" ≠ "")
    (hlen : (resultsOf lower queries db ctx).length = queries.length)
    (hall : ∀ r ∈ resultsOf lower queries db ctx, r = ScanResult.ok false) :
    handler lower queries db ctx
      = (queries.map fun q => Event.Queue q [lookupKey lower ctx])
        ++ [Event.SendBatch (boundTo (lookupKey lower ctx) queries)]
        ++ ((resultsOf lower queries db ctx).map Event.QueryRowScan
            ++ [Event.SetStatusCode 404, Event.WriteString "domain not found"])
        ++ [Event.Close] := by
  rw [handler_nonempty lower queries db ctx hne]
  simp only [resultsOf, lookupKey] at hlen hall ⊢
  rw [scanLoop_all_false queries _ hlen hall]
  simp

theorem observe_first_true (lower : Char → Char) (queries : List String) (db : Pool)
    (ctx : RequestCtx) (hne : Peek ctx.QueryArgs "domain" ≠ "") (k : Nat)
    (hq : k < queries.length)
    (hk : (resultsOf lower queries db ctx)[k]? = some (ScanResult.ok true))
    (hpre : ∀ j, j < k → (resultsOf lower queries db ctx)[j]? = some (ScanResult.ok false)) :
    statusCodes (handler lower queries db ctx) = [204]
      ∧ writes (handler lower queries db ctx) = []
      ∧ stderr (handler lower queries db ctx) = []
      ∧ scans (handler lower queries db ctx) = (resultsOf lower queries db ctx).take (k + 1) := by
  rw [trace_first_true lower queries db ctx hne k hq hk hpre, take_succ_of_getElem? _ k _ hk]
  refine ⟨?_, ?_, ?_, ?_⟩
  · simp only [statusCodes_append, statusCodes_map_Queue, statusCodes_map_QueryRowScan,
      statusCodes_cons, statusCodes_nil, List.append_nil, List.nil_append]
  · simp only [writes_append, writes_map_Queue, writes_map_QueryRowScan,
      writes_cons, writes_nil, List.append_nil, List.nil_append]
  · simp only [stderr_append, stderr_map_Queue, stderr_map_QueryRowScan,
      stderr_cons, stderr_nil, List.append_nil, List.nil_append]
  · simp only [scans_append, scans_map_Queue, scans_map_QueryRowScan,
      scans_cons, scans_nil, List.append_nil, List.nil_append]

theorem observe_first_err (lower : Char → Char) (queries : List String) (db : Pool)
    (ctx : RequestCtx) (hne : Peek ctx.QueryArgs "domain" ≠ "") (k : Nat) (detail : String)
    (hq : k < queries.length)
    (hk : (resultsOf lower queries db ctx)[k]? = some (ScanResult.err detail))
    (hpre : ∀ j, j < k → (resultsOf lower queries db ctx)[j]? = some (ScanResult.ok false)) :
    statusCodes (handler lower queries db ctx) = [500]
      ∧ writes (handler lower queries db ctx) = ["internal server error"]
      ∧ stderr (handler lower queries db ctx)
          = ["failed to execute query: " ++ detail ++ "\n"]
      ∧ scans (handler lower queries db ctx) = (resultsOf lower queries db ctx).take (k + 1) := by
  rw [trace_first_err lower queries db ctx hne k detail hq hk hpre,
    take_succ_of_getElem? _ k _ hk]
  refine ⟨?_, ?_, ?_, ?_⟩
  · simp only [statusCodes_append, statusCodes_map_Queue, statusCodes_map_QueryRowScan,
      statusCodes_cons, statusCodes_nil, List.append_nil, List.nil_append]
  · simp only [writes_append, writes_map_Queue, writes_map_QueryRowScan,
      writes_cons, writes_nil, List.append_nil, List.nil_append]
  · simp only [stderr_append, stderr_map_Queue, stderr_map_QueryRowScan,
      stderr_cons, stderr_nil, List.append_nil, List.nil_append]
  · simp only [scans_append, scans_map_Queue, scans_map_QueryRowScan,
      scans_cons, scans_nil, List.append_nil, List.nil_append]

theorem observe_all_false (lower : Char → Char) (queries : List String) (db : Pool)
    (ctx : RequestCtx) (hne : Peek ctx.QueryArgs "domain" ≠ "")
    (hlen : (resultsOf lower queries db ctx).length = queries.length)
    (hall : ∀ r ∈ resultsOf lower queries db ctx, r = ScanResult.ok false) :
    statusCodes (handler lower queries db ctx) = [404]
      ∧ writes (handler lower queries db ctx) = ["domain not found"]
      ∧ stderr (handler lower queries db ctx) = []
      ∧ scans (handler lower queries db ctx) = resultsOf lower queries db ctx := by
  rw [trace_all_false lower queries db ctx hne hlen hall]
  refine ⟨?_, ?_, ?_, ?_⟩
  · simp only [statusCodes_append, statusCodes_map_Queue, statusCodes_map_QueryRowScan,
      statusCodes_cons, statusCodes_nil, List.append_nil, List.nil_append]
  · simp only [writes_append, writes_map_Queue, writes_map_QueryRowScan,
      writes_cons, writes_nil, List.append_nil, List.nil_append]
  · simp only [stderr_append, stderr_map_Queue, stderr_map_QueryRowScan,
      stderr_cons, stderr_nil, List.append_nil, List.nil_append]
  · simp only [scans_append, scans_map_Queue, scans_map_QueryRowScan,
      scans_cons, scans_nil, List.append_nil, List.nil_append]

theorem exists_first_decisive (l : List ScanResult)
    (h : ¬ ∀ r ∈ l, r = ScanResult.ok false) :
    ∃ (k : Nat) (r : ScanResult), l[k]? = some r ∧ r ≠ ScanResult.ok false
      ∧ ∀ j : Nat, j < k → l[j]? = some (ScanResult.ok false) := by
  induction l with
  | nil => exact absurd (fun r hr => by simp at hr) h
  | cons x xs ih =>
    by_cases hx : x = ScanResult.ok false
    · have hxs : ¬ ∀ r ∈ xs, r = ScanResult.ok false := by
        intro hall
        apply h
        intro r hr
        rcases List.mem_cons.mp hr with rfl | hr
        · exact hx
        · exact hall r hr
      obtain ⟨k, r, hk, hr, hpre⟩ := ih hxs
      refine ⟨k + 1, r, by simpa using hk, hr, ?_⟩
      intro j hj
      cases j with
      | zero => simp [hx]
      | succ j => simpa using hpre j (Nat.lt_of_succ_lt_succ hj)
    · exact ⟨0, x, by simp, hx, fun j hj => absurd hj (Nat.not_lt_zero j)⟩

theorem lt_length_of_getElem? {α : Type} (l : List α) (k : Nat) (a : α)
    (h : l[k]? = some a) : k < l.length :=
  (List.getElem?_eq_some_iff.mp h).1

theorem getLast?_snoc {α : Type} (l : List α) (a : α) : (l ++ [a]).getLast? = some a := by
  induction l with
  | nil => rfl
  | cons x xs ih =>
    cases xs with
    | nil => rfl
    | cons y ys => simpa [List.getLast?_cons_cons] using ih

theorem scanLoop_shape (queries : List String) (results : List ScanResult) :
    sent (scanLoop queries results).1 = []
      ∧ closes (scanLoop queries results).1 = 0
      ∧ queued (scanLoop queries results).1 = []
      ∧ (((scanLoop queries results).2 = true
            ∧ (statusCodes (scanLoop queries results).1 = [204]
                ∨ statusCodes (scanLoop queries results).1 = [500]))
          ∨ ((scanLoop queries results).2 = false
            ∧ statusCodes (scanLoop queries results).1 = [])) := by
  induction queries generalizing results with
  | nil => simp [scanLoop, sent_nil, closes_nil, queued_nil, statusCodes_nil]
  | cons q qs ih =>
    cases results with
    | nil =>
      simp [scanLoop, QueryRowScan, sent_cons, sent_nil, closes_cons, closes_nil,
        queued_cons, queued_nil, statusCodes_cons, statusCodes_nil]
    | cons r rs =>
      cases r with
      | err d =>
        simp [scanLoop, QueryRowScan, sent_cons, sent_nil, closes_cons, closes_nil,
          queued_cons, queued_nil, statusCodes_cons, statusCodes_nil]
      | ok b =>
        cases b with
        | true =>
          simp [scanLoop, QueryRowScan, sent_cons, sent_nil, closes_cons, closes_nil,
            queued_cons, queued_nil, statusCodes_cons, statusCodes_nil]
        | false =>
          simpa [scanLoop, QueryRowScan, sent_cons, closes_cons, queued_cons,
            statusCodes_cons] using ih rs

theorem observe_nonempty (lower : Char → Char) (queries : List String) (db : Pool)
    (ctx : RequestCtx) (hne : Peek ctx.QueryArgs "domain" ≠ "") :
    queued (handler lower queries db ctx) = boundTo (lookupKey lower ctx) queries
      ∧ sent (handler lower queries db ctx) = [boundTo (lookupKey lower ctx) queries]
      ∧ closes (handler lower queries db ctx) = 1
      ∧ (handler lower queries db ctx).getLast? = some Event.Close
      ∧ (statusCodes (handler lower queries db ctx) = [204]
          ∨ statusCodes (handler lower queries db ctx) = [404]
          ∨ statusCodes (handler lower queries db ctx) = [500]) := by
  rw [handler_nonempty lower queries db ctx hne]
  obtain ⟨hs, hc, hqd, hst⟩ := scanLoop_shape queries
    (db.SendBatch (boundTo (ToLower lower (Peek ctx.QueryArgs "domain")) queries))
  simp only [lookupKey]
  rcases hst with ⟨h2, h⟩ | ⟨h2, h⟩
  · simp only [h2, if_true]
    refine ⟨?_, ?_, ?_, ?_, ?_⟩
    · simp only [queued_append, queued_map_Queue, queued_cons, queued_nil, hqd,
        List.append_nil, List.nil_append]
    · simp only [sent_append, sent_map_Queue, sent_cons, sent_nil, hs,
        List.append_nil, List.nil_append]
    · simp only [closes_append, closes_map_Queue, closes_cons, closes_nil, hc]
    · exact getLast?_snoc _ _
    · simp only [statusCodes_append, statusCodes_map_Queue, statusCodes_cons,
        statusCodes_nil, List.append_nil, List.nil_append]
      rcases h with h | h
      · exact Or.inl h
      · exact Or.inr (Or.inr h)
  · simp only [h2, Bool.false_eq_true, if_false]
    refine ⟨?_, ?_, ?_, ?_, ?_⟩
    · simp only [queued_append, queued_map_Queue, queued_cons, queued_nil, hqd,
        List.append_nil, List.nil_append]
    · simp only [sent_append, sent_map_Queue, sent_cons, sent_nil, hs,
        List.append_nil, List.nil_append]
    · simp only [closes_append, closes_map_Queue, closes_cons, closes_nil, hc]
    · exact getLast?_snoc _ _
    · simp only [statusCodes_append, statusCodes_map_Queue, statusCodes_cons,
        statusCodes_nil, List.append_nil, List.nil_append, h]
      exact Or.inr (Or.inl trivial)

theorem statusCode_of_single (tr : List Event) (c : Nat) (h : statusCodes tr = [c]) :
    statusCode tr = c := by
  simp [statusCode, h]

theorem body_of_no_write (tr : List Event) (h : writes tr = []) : body tr = "" := by
  simp [body, h, String.join]

theorem body_of_single (tr : List Event) (s : String) (h : writes tr = [s]) :
    body tr = s := by
  simp [body, h, String.join]

/-! ## Claims about the request handler -/

/-- C1: for every query list, pool and request with a non-empty domain whose batch
yields one result per query, the handler answers 204 with an empty body exactly when
some statement's result is true and every earlier statement was read without error
and returned false. In particular, with the queries for `users` then `blocked`, the
domain `Test.com` and the results false then true, the response is 204 with no
body. -/
theorem handler_found_iff (lower : Char → Char) (queries : List String) (db : Pool)
    (ctx : RequestCtx) :
    (Peek ctx.QueryArgs "domain" ≠ "" →
      (resultsOf lower queries db ctx).length = queries.length →
      ((statusCode (handler lower queries db ctx) = 204
          ∧ body (handler lower queries db ctx) = "")
        ↔ ∃ k : Nat, (resultsOf lower queries db ctx)[k]? = some (ScanResult.ok true)
            ∧ ∀ j : Nat, j < k →
                (resultsOf lower queries db ctx)[j]? = some (ScanResult.ok false)))
    ∧ (statusCode (handler lower scenarioQueries
          (fixedDb [ScanResult.ok false, ScanResult.ok true]) (domainRequest "Test.com")) = 204
        ∧ body (handler lower scenarioQueries
          (fixedDb [ScanResult.ok false, ScanResult.ok true]) (domainRequest "Test.com")) = "") := by
  have found : ∀ (qs : List String) (d : Pool) (c : RequestCtx),
      Peek c.QueryArgs "domain" ≠ "" →
      (resultsOf lower qs d c).length = qs.length →
      (∃ k : Nat, (resultsOf lower qs d c)[k]? = some (ScanResult.ok true)
            ∧ ∀ j : Nat, j < k → (resultsOf lower qs d c)[j]? = some (ScanResult.ok false)) →
      statusCode (handler lower qs d c) = 204 ∧ body (handler lower qs d c) = "" := by
    intro qs d c hne hlen ⟨k, hk, hpre⟩
    have hq : k < qs.length := hlen ▸ lt_length_of_getElem? _ k _ hk
    obtain ⟨h1, h2, _, _⟩ := observe_first_true lower qs d c hne k hq hk hpre
    exact ⟨statusCode_of_single _ _ h1, body_of_no_write _ h2⟩
  refine ⟨fun hne hlen => ⟨fun hfound => ?_, found queries db ctx hne hlen⟩, ?_⟩
  · by_cases hall : ∀ r ∈ resultsOf lower queries db ctx, r = ScanResult.ok false
    · obtain ⟨h1, _, _, _⟩ := observe_all_false lower queries db ctx hne hlen hall
      have := statusCode_of_single _ _ h1
      omega
    · obtain ⟨k, r, hk, hr, hpre⟩ := exists_first_decisive _ hall
      have hq : k < queries.length := hlen ▸ lt_length_of_getElem? _ k _ hk
      cases r with
      | err d =>
        obtain ⟨h1, _, _, _⟩ := observe_first_err lower queries db ctx hne k d hq hk hpre
        have := statusCode_of_single _ _ h1
        omega
      | ok b =>
        cases b with
        | true => exact ⟨k, hk, hpre⟩
        | false => exact absurd rfl hr
  · exact found scenarioQueries _ (domainRequest "Test.com") (by decide) rfl
      ⟨1, rfl, fun j hj => by
        have : j = 0 := by omega
        subst this
        rfl⟩

/-- The scenario of C1 end to end: `users` has no row, `blocked` holds `test.com`, the
request asks for `Test.com` and lower-casing is ASCII lower-casing. -/
theorem handler_found_iff_witness :
    Peek (domainRequest "Test.com").QueryArgs "domain" ≠ ""
      ∧ (resultsOf Char.toLower scenarioQueries scenarioDb (domainRequest "Test.com")).length
          = scenarioQueries.length
      ∧ statusCode (handler Char.toLower scenarioQueries scenarioDb
          (domainRequest "Test.com")) = 204
      ∧ body (handler Char.toLower scenarioQueries scenarioDb
          (domainRequest "Test.com")) = "" :=
  ⟨by decide, by decide,
    ((handler_found_iff Char.toLower scenarioQueries scenarioDb
      (domainRequest "Test.com")).1 (by decide) (by decide)).mpr
      ⟨1, by decide, by decide⟩⟩

/-- C2: for every query list and pool, a request whose `domain` argument is absent or
empty is answered 400 with body "domain query parameter cannot be empty", queues no
statement, sends no batch, reads no result and releases nothing; and for every
request whatsoever, every argument bound to a queued or sent statement is
non-empty. -/
theorem handler_empty_domain (lower : Char → Char) (queries : List String) (db : Pool)
    (ctx : RequestCtx) :
    ((ctx.QueryArgs.lookup "domain" = none ∨ ctx.QueryArgs.lookup "domain" = some "") →
      handler lower queries db ctx
          = [Event.SetStatusCode 400,
             Event.WriteString "domain query parameter cannot be empty"]
        ∧ statusCode (handler lower queries db ctx) = 400
        ∧ body (handler lower queries db ctx) = "domain query parameter cannot be empty"
        ∧ queued (handler lower queries db ctx) = []
        ∧ sent (handler lower queries db ctx) = []
        ∧ scans (handler lower queries db ctx) = []
        ∧ closes (handler lower queries db ctx) = 0)
    ∧ (∀ item ∈ queued (handler lower queries db ctx), ∀ a ∈ item.arguments, a ≠ "")
    ∧ (∀ batch ∈ sent (handler lower queries db ctx), ∀ item ∈ batch,
        ∀ a ∈ item.arguments, a ≠ "") := by
  have hkey : ∀ item ∈ boundTo (lookupKey lower ctx) queries,
      ∀ a ∈ item.arguments, a = lookupKey lower ctx := by
    intro item hitem a ha
    simp only [boundTo, List.mem_map] at hitem
    obtain ⟨q, _, rfl⟩ := hitem
    simpa using ha
  by_cases hd : Peek ctx.QueryArgs "domain" = ""
  · have htr := handler_empty lower queries db ctx hd
    refine ⟨fun _ => ?_, ?_, ?_⟩
    · rw [htr]
      exact ⟨rfl, rfl, rfl, rfl, rfl, rfl, rfl⟩
    · rw [htr]
      intro item hitem
      exact absurd hitem (by simp [queued_cons, queued_nil])
    · rw [htr]
      intro batch hbatch
      exact absurd hbatch (by simp [sent_cons, sent_nil])
  · obtain ⟨hq, hs, _, _, _⟩ := observe_nonempty lower queries db ctx hd
    have hkne : lookupKey lower ctx ≠ "" := ToLower_ne_empty lower _ hd
    refine ⟨fun habs => ?_, ?_, ?_⟩
    · exfalso
      apply hd
      rcases habs with h | h <;> simp [Peek, h]
    · rw [hq]
      intro item hitem a ha
      rw [hkey item hitem a ha]
      exact hkne
    · rw [hs]
      intro batch hbatch item hitem a ha
      simp only [List.mem_singleton] at hbatch
      subst hbatch
      rw [hkey item hitem a ha]
      exact hkne

/-- C2 on a request without any argument and on the request `domain=`. -/
theorem handler_empty_domain_witness :
    (statusCode (handler Char.toLower scenarioQueries scenarioDb ⟨[]⟩) = 400
      ∧ body (handler Char.toLower scenarioQueries scenarioDb ⟨[]⟩)
          = "domain query parameter cannot be empty"
      ∧ queued (handler Char.toLower scenarioQueries scenarioDb ⟨[]⟩) = []
      ∧ sent (handler Char.toLower scenarioQueries scenarioDb ⟨[]⟩) = []
      ∧ scans (handler Char.toLower scenarioQueries scenarioDb ⟨[]⟩) = []
      ∧ closes (handler Char.toLower scenarioQueries scenarioDb ⟨[]⟩) = 0)
    ∧ handler Char.toLower scenarioQueries scenarioDb (domainRequest "")
        = [Event.SetStatusCode 400,
           Event.WriteString "domain query parameter cannot be empty"] :=
  ⟨((handler_empty_domain Char.toLower scenarioQueries scenarioDb ⟨[]⟩).1
      (Or.inl (by decide))).2,
   ((handler_empty_domain Char.toLower scenarioQueries scenarioDb (domainRequest "")).1
      (Or.inr (by decide))).1⟩

/-- C7: for every request with a non-empty domain whose batch yields one result per
query, if the first result that is not a successful false is a read error with detail
`detail`, the handler answers 500 with body "internal server error" (the same body
for every detail), writes exactly one line to the log, the one carrying `detail`, and
does so whatever the later results are. -/
theorem handler_error_opaque (lower : Char → Char) (queries : List String) (db : Pool)
    (ctx : RequestCtx) (k : Nat) (detail : String)
    (hne : Peek ctx.QueryArgs "domain" ≠ "")
    (hlen : (resultsOf lower queries db ctx).length = queries.length)
    (hk : (resultsOf lower queries db ctx)[k]? = some (ScanResult.err detail))
    (hpre : ∀ j : Nat, j < k →
      (resultsOf lower queries db ctx)[j]? = some (ScanResult.ok false)) :
    statusCode (handler lower queries db ctx) = 500
      ∧ body (handler lower queries db ctx) = "internal server error"
      ∧ stderr (handler lower queries db ctx)
          = ["failed to execute query: " ++ detail ++ "\n"] := by
  have hq : k < queries.length := hlen ▸ lt_length_of_getElem? _ k _ hk
  obtain ⟨h1, h2, h3, _⟩ := observe_first_err lower queries db ctx hne k detail hq hk hpre
  exact ⟨statusCode_of_single _ _ h1, body_of_single _ _ h2, h3⟩

/-- C7 on three statements whose results are false, the error "connection refused",
true: the answer is the generic 500 although the third statement would return true. -/
theorem handler_error_opaque_witness :
    Peek (domainRequest "example.com").QueryArgs "domain" ≠ ""
      ∧ statusCode (handler Char.toLower ["q0", "q1", "q2"]
          (fixedDb [ScanResult.ok false, ScanResult.err "connection refused",
            ScanResult.ok true]) (domainRequest "example.com")) = 500
      ∧ body (handler Char.toLower ["q0", "q1", "q2"]
          (fixedDb [ScanResult.ok false, ScanResult.err "connection refused",
            ScanResult.ok true]) (domainRequest "example.com")) = "internal server error"
      ∧ stderr (handler Char.toLower ["q0", "q1", "q2"]
          (fixedDb [ScanResult.ok false, ScanResult.err "connection refused",
            ScanResult.ok true]) (domainRequest "example.com"))
          = ["failed to execute query: " ++ "connection refused" ++ "\n"] :=
  ⟨by decide,
    handler_error_opaque Char.toLower ["q0", "q1", "q2"]
      (fixedDb [ScanResult.ok false, ScanResult.err "connection refused", ScanResult.ok true])
      (domainRequest "example.com") 1 "connection refused"
      (by decide) (by decide) (by decide) (by decide)⟩

/-- C8: for every request with a non-empty domain, if the batch yields one result per
query and every one of them is a successful false, the handler answers 404 with body
"domain not found"; with zero configured statements every such request is answered
404 with that body and no result is read, whatever the pool would stream. -/
theorem handler_not_found (lower : Char → Char) (queries : List String) (db : Pool)
    (ctx : RequestCtx) (hne : Peek ctx.QueryArgs "domain" ≠ "") :
    ((resultsOf lower queries db ctx).length = queries.length →
      (∀ r ∈ resultsOf lower queries db ctx, r = ScanResult.ok false) →
      statusCode (handler lower queries db ctx) = 404
        ∧ body (handler lower queries db ctx) = "domain not found")
    ∧ (queries = [] →
      statusCode (handler lower queries db ctx) = 404
        ∧ body (handler lower queries db ctx) = "domain not found"
        ∧ scans (handler lower queries db ctx) = []) := by
  constructor
  · intro hlen hall
    obtain ⟨h1, h2, _, _⟩ := observe_all_false lower queries db ctx hne hlen hall
    exact ⟨statusCode_of_single _ _ h1, body_of_single _ _ h2⟩
  · intro hnil
    subst hnil
    rw [handler_nonempty lower [] db ctx hne]
    simp only [scanLoop, List.map_nil, List.nil_append, Bool.false_eq_true, if_false]
    exact ⟨rfl, rfl, rfl⟩

/-- C8 on the scenario configuration with a domain present in neither table, and on an
empty statement list. -/
theorem handler_not_found_witness :
    Peek (domainRequest "missing.io").QueryArgs "domain" ≠ ""
      ∧ (statusCode (handler Char.toLower scenarioQueries scenarioDb
            (domainRequest "missing.io")) = 404
          ∧ body (handler Char.toLower scenarioQueries scenarioDb
            (domainRequest "missing.io")) = "domain not found")
      ∧ scans (handler Char.toLower [] scenarioDb (domainRequest "missing.io")) = [] :=
  ⟨by decide,
    (handler_not_found Char.toLower scenarioQueries scenarioDb (domainRequest "missing.io")
      (by decide)).1 (by decide) (by decide),
    ((handler_not_found Char.toLower [] scenarioDb (domainRequest "missing.io")
      (by decide)).2 rfl).2.2⟩

/-! ## Claims about query building and start-up -/

theorem buildQueries_ok (specs : List oneOf)
    (hne : ∀ o ∈ specs, o.TableName ≠ "" ∧ o.Column ≠ "") :
    buildQueries specs
      = Except.ok (specs.map fun o =>
          "SELECT EXISTS (SELECT 1 FROM " ++ o.TableName ++ " WHERE " ++ o.Column ++ " = $1)") := by
  induction specs with
  | nil => rfl
  | cons o rest ih =>
    have ho := hne o (by simp)
    have := ih (fun x hx => hne x (by simp [hx]))
    simp [buildQueries, ho.1, ho.2, this]

theorem buildQueries_error (specs : List oneOf)
    (hbad : ∃ o ∈ specs, o.TableName = "" ∨ o.Column = "") :
    ∃ msg, buildQueries specs = Except.error msg
      ∧ (msg = "table_name cannot be empty" ∨ msg = "column cannot be empty") := by
  induction specs with
  | nil =>
    obtain ⟨o, ho, _⟩ := hbad
    simp at ho
  | cons o rest ih =>
    by_cases ht : o.TableName = ""
    · exact ⟨_, by simp [buildQueries, ht], Or.inl rfl⟩
    · by_cases hc : o.Column = ""
      · exact ⟨_, by simp [buildQueries, ht, hc], Or.inr rfl⟩
      · obtain ⟨x, hx, hxbad⟩ := hbad
        rcases List.mem_cons.mp hx with rfl | hx
        · rcases hxbad with h | h
          · exact absurd h ht
          · exact absurd h hc
        · obtain ⟨msg, hmsg, hm⟩ := ih ⟨x, hx, hxbad⟩
          exact ⟨msg, by simp [buildQueries, ht, hc, hmsg], hm⟩

/-- C3: for every list of at least one spec in which every `table_name` and `column`
is non-empty, query building succeeds with exactly as many statements as specs, the
i-th statement is built from the i-th spec and its text is exactly
"SELECT EXISTS (SELECT 1 FROM " ++ table_name ++ " WHERE " ++ column ++ " = $1)", and
the handler binds exactly one argument to every statement it queues. -/
theorem buildQueries_statements (specs : List oneOf) (hlen : 1 ≤ specs.length)
    (hne : ∀ o ∈ specs, o.TableName ≠ "" ∧ o.Column ≠ "") :
    ∃ queries, buildQueries specs = Except.ok queries
      ∧ queries.length = specs.length
      ∧ 1 ≤ queries.length
      ∧ (∀ (i : Nat) (o : oneOf), specs[i]? = some o →
          queries[i]? = some ("SELECT EXISTS (SELECT 1 FROM " ++ o.TableName
            ++ " WHERE " ++ o.Column ++ " = $1)"))
      ∧ (∀ (lower : Char → Char) (db : Pool) (ctx : RequestCtx),
          ∀ item ∈ queued (handler lower queries db ctx), item.arguments.length = 1) := by
  refine ⟨_, buildQueries_ok specs hne, by simp, by simpa using hlen, ?_, ?_⟩
  · intro i o hi
    simp [List.getElem?_map, hi]
  · intro lower db ctx item hitem
    by_cases hd : Peek ctx.QueryArgs "domain" = ""
    · rw [handler_empty lower _ db ctx hd] at hitem
      exact absurd hitem (by simp [queued_cons, queued_nil])
    · rw [(observe_nonempty lower _ db ctx hd).1] at hitem
      simp only [boundTo, List.mem_map] at hitem
      obtain ⟨q, _, rfl⟩ := hitem
      rfl

/-- C3 on the configuration `users.domain`, `blocked.domain`. -/
theorem buildQueries_statements_witness :
    1 ≤ scenarioSpecs.length
      ∧ (∀ o ∈ scenarioSpecs, o.TableName ≠ "" ∧ o.Column ≠ "")
      ∧ ∃ queries, buildQueries scenarioSpecs = Except.ok queries
          ∧ queries.length = scenarioSpecs.length
          ∧ 1 ≤ queries.length
          ∧ (∀ (i : Nat) (o : oneOf), scenarioSpecs[i]? = some o →
              queries[i]? = some ("SELECT EXISTS (SELECT 1 FROM " ++ o.TableName
                ++ " WHERE " ++ o.Column ++ " = $1)"))
          ∧ (∀ (lower : Char → Char) (db : Pool) (ctx : RequestCtx),
              ∀ item ∈ queued (handler lower queries db ctx), item.arguments.length = 1) :=
  ⟨by decide, by decide, buildQueries_statements scenarioSpecs (by decide) (by decide)⟩

/-- C5 fails on the code: building the queries of an empty spec list does not fail. -/
theorem buildQueries_empty_not_error : ¬ ∃ msg, buildQueries [] = Except.error msg := by
  rintro ⟨msg, h⟩
  simp [buildQueries] at h

/-- C5, amended: query building does not fail on an empty spec list; it yields the
empty statement list, and when `postgres_uri` is non-empty start-up goes on to
connect to the database, so zero configured checks is accepted as a runnable state. -/
theorem buildQueries_empty_ok (conf : config) (os : Os)
    (hempty : conf.OneOf = []) (huri : conf.PostgresURI ≠ "") :
    buildQueries conf.OneOf = Except.ok []
      ∧ (main conf os).1.head? = some (StartupEvent.Connect conf.PostgresURI) := by
  rw [hempty]
  refine ⟨rfl, ?_⟩
  simp only [main, hempty, buildQueries, huri, if_false]
  cases os.Connect conf.PostgresURI with
  | error e => rfl
  | ok _ =>
    simp only []
    cases os.Listen (if os.HOST = "" then ":8383" else os.HOST) with
    | error e => rfl
    | ok addr =>
      simp only []
      cases os.Serve <;> rfl

/-- The amended C5 on the configuration with no `one_of` entry. -/
theorem buildQueries_empty_ok_witness :
    (⟨"postgres://localhost/db", []⟩ : config).OneOf = []
      ∧ (⟨"postgres://localhost/db", []⟩ : config).PostgresURI ≠ ""
      ∧ buildQueries (⟨"postgres://localhost/db", []⟩ : config).OneOf = Except.ok []
      ∧ (main ⟨"postgres://localhost/db", []⟩
            ⟨fun _ => Except.ok scenarioDb, "", fun h => Except.ok h, none⟩).1.head?
          = some (StartupEvent.Connect "postgres://localhost/db") :=
  ⟨rfl, by decide,
    buildQueries_empty_ok ⟨"postgres://localhost/db", []⟩
      ⟨fun _ => Except.ok scenarioDb, "", fun h => Except.ok h, none⟩ rfl (by decide)⟩

/-- C6: for every configuration and every environment, when some `one_of` entry has an
empty `table_name` or an empty `column`, or when `postgres_uri` is empty, `main`
panics with one of its three configuration messages before it has connected to the
database, listened or served; and when every entry has a non-empty `table_name` and
`column`, query building does not fail. -/
theorem main_fails_fast (conf : config) (os : Os) :
    (((∃ o ∈ conf.OneOf, o.TableName = "" ∨ o.Column = "") ∨ conf.PostgresURI = "") →
      (main conf os).1 = []
        ∧ ∃ msg, (main conf os).2 = some msg
            ∧ (msg = "table_name cannot be empty" ∨ msg = "column cannot be empty"
                ∨ msg = "postgres_uri cannot be empty"))
    ∧ ((∀ o ∈ conf.OneOf, o.TableName ≠ "" ∧ o.Column ≠ "") →
      ∃ queries, buildQueries conf.OneOf = Except.ok queries) := by
  constructor
  · intro h
    by_cases hbad : ∃ o ∈ conf.OneOf, o.TableName = "" ∨ o.Column = ""
    · obtain ⟨msg, hmsg, hm⟩ := buildQueries_error conf.OneOf hbad
      refine ⟨by simp [main, hmsg], msg, by simp [main, hmsg], ?_⟩
      rcases hm with hm | hm
      · exact Or.inl hm
      · exact Or.inr (Or.inl hm)
    · have huri : conf.PostgresURI = "" := by
        rcases h with h | h
        · exact absurd h hbad
        · exact h
      have hok := buildQueries_ok conf.OneOf (fun o ho => by
        constructor
        · intro ht
          exact hbad ⟨o, ho, Or.inl ht⟩
        · intro hc
          exact hbad ⟨o, ho, Or.inr hc⟩)
      exact ⟨by simp [main, hok, huri], _, by simp [main, hok, huri], Or.inr (Or.inr rfl)⟩
  · intro hne
    exact ⟨_, buildQueries_ok conf.OneOf hne⟩

/-- C6 on a configuration whose second entry has an empty column, on one with an empty
`postgres_uri`, and on the well-formed scenario configuration. -/
theorem main_fails_fast_witness :
    (main ⟨"postgres://localhost/db", [⟨"users", "domain"⟩, ⟨"blocked", ""⟩]⟩
        ⟨fun _ => Except.ok scenarioDb, "", fun h => Except.ok h, none⟩).1 = []
      ∧ (main ⟨"", scenarioSpecs⟩
        ⟨fun _ => Except.ok scenarioDb, "", fun h => Except.ok h, none⟩).1 = []
      ∧ ∃ queries, buildQueries (⟨"", scenarioSpecs⟩ : config).OneOf = Except.ok queries :=
  ⟨((main_fails_fast ⟨"postgres://localhost/db", [⟨"users", "domain"⟩, ⟨"blocked", ""⟩]⟩
      ⟨fun _ => Except.ok scenarioDb, "", fun h => Except.ok h, none⟩).1
      (Or.inl ⟨⟨"blocked", ""⟩, by decide, Or.inr rfl⟩)).1,
   ((main_fails_fast ⟨"", scenarioSpecs⟩
      ⟨fun _ => Except.ok scenarioDb, "", fun h => Except.ok h, none⟩).1 (Or.inr rfl)).1,
   (main_fails_fast ⟨"", scenarioSpecs⟩
      ⟨fun _ => Except.ok scenarioDb, "", fun h => Except.ok h, none⟩).2 (by decide)⟩

/-! ## Claims about the batch and the order of reads -/

theorem handler_congr (lower : Char → Char) (queries : List String) (db db' : Pool)
    (ctx ctx' : RequestCtx)
    (hne : Peek ctx.QueryArgs "domain" ≠ "") (hne' : Peek ctx'.QueryArgs "domain" ≠ "")
    (hkey : lookupKey lower ctx' = lookupKey lower ctx)
    (hres : resultsOf lower queries db' ctx' = resultsOf lower queries db ctx) :
    handler lower queries db' ctx' = handler lower queries db ctx := by
  rw [handler_nonempty lower queries db ctx hne, handler_nonempty lower queries db' ctx' hne']
  simp only [resultsOf, lookupKey] at hkey hres
  rw [hres, hkey]

theorem unicodeToLower_of_sameLetter (caseTable : Char → Char) (c c' : Char)
    (h : sameLetter caseTable c c' = true) :
    unicodeToLower caseTable c = unicodeToLower caseTable c' := by
  simp only [sameLetter, Bool.or_eq_true, decide_eq_true_eq] at h
  rcases h with ((h | h) | h) | h
  · rw [h]
  · obtain ⟨h1, h2, h3⟩ := h
    have e : Char.ofNat (c.toNat + 32) = c' := by rw [← h3, Char.ofNat_toNat]
    have a1 : c.toNat ≤ 127 := by omega
    have a2 : c'.toNat ≤ 127 := by omega
    have a3 : ¬ (65 ≤ c'.toNat ∧ c'.toNat ≤ 90) := by omega
    simp only [unicodeToLower, a1, a2, a3, h1, h2, and_self, if_true, if_false, e]
  · obtain ⟨h1, h2, h3⟩ := h
    have e : Char.ofNat (c'.toNat + 32) = c := by rw [← h3, Char.ofNat_toNat]
    have a1 : c'.toNat ≤ 127 := by omega
    have a2 : c.toNat ≤ 127 := by omega
    have a3 : ¬ (65 ≤ c.toNat ∧ c.toNat ≤ 90) := by omega
    simp only [unicodeToLower, a1, a2, a3, h1, h2, and_self, if_true, if_false, e]
  · obtain ⟨h1, h2, h3⟩ := h
    have a1 : ¬ c.toNat ≤ 127 := by omega
    have a2 : ¬ c'.toNat ≤ 127 := by omega
    simp only [unicodeToLower, a1, a2, if_false, h3]

theorem map_unicodeToLower_of_differOnlyInCase (caseTable : Char → Char)
    (l l' : List Char) (h : differOnlyInCase caseTable l l' = true) :
    l.map (unicodeToLower caseTable) = l'.map (unicodeToLower caseTable) := by
  induction l generalizing l' with
  | nil =>
    cases l' with
    | nil => rfl
    | cons c' cs' => simp [differOnlyInCase] at h
  | cons c cs ih =>
    cases l' with
    | nil => simp [differOnlyInCase] at h
    | cons c' cs' =>
      simp only [differOnlyInCase, Bool.and_eq_true] at h
      simp only [List.map_cons, unicodeToLower_of_sameLetter caseTable c c' h.1, ih cs' h.2]

/-- C4: for every request with a non-empty domain, the handler queues the built
queries in configuration order, each bound to one single argument, the domain with
every rune replaced by its lower-case form (`unicode.ToLower`: an ASCII capital
becomes the letter 32 code points higher, any other ASCII rune is kept, a rune above
ASCII goes through the Unicode case tables), and submits exactly that batch. Hence a
second request whose domain differs from the first only in letter case submits the
same batch and, when the pool streams the same results for it, produces the same
trace, status and body. In particular the requests for "Example.COM" and for
"example.com" both submit the built queries bound to the key "example.com". -/
theorem handler_batch_normalized (caseTable : Char → Char) (queries : List String)
    (db : Pool) (ctx : RequestCtx) (hne : Peek ctx.QueryArgs "domain" ≠ "") :
    queued (handler (unicodeToLower caseTable) queries db ctx)
        = queries.map (fun q =>
            ⟨q, [String.mk ((Peek ctx.QueryArgs "domain").data.map
              (unicodeToLower caseTable))]⟩)
      ∧ sent (handler (unicodeToLower caseTable) queries db ctx)
        = [queries.map (fun q =>
            ⟨q, [String.mk ((Peek ctx.QueryArgs "domain").data.map
              (unicodeToLower caseTable))]⟩)]
      ∧ (∀ (db' : Pool) (ctx' : RequestCtx), Peek ctx'.QueryArgs "domain" ≠ "" →
          differOnlyInCase caseTable (Peek ctx'.QueryArgs "domain").data
            (Peek ctx.QueryArgs "domain").data = true →
          sent (handler (unicodeToLower caseTable) queries db' ctx')
              = sent (handler (unicodeToLower caseTable) queries db ctx)
            ∧ (resultsOf (unicodeToLower caseTable) queries db' ctx'
                  = resultsOf (unicodeToLower caseTable) queries db ctx →
                handler (unicodeToLower caseTable) queries db' ctx'
                    = handler (unicodeToLower caseTable) queries db ctx
                  ∧ statusCode (handler (unicodeToLower caseTable) queries db' ctx')
                      = statusCode (handler (unicodeToLower caseTable) queries db ctx)
                  ∧ body (handler (unicodeToLower caseTable) queries db' ctx')
                      = body (handler (unicodeToLower caseTable) queries db ctx)))
      ∧ sent (handler (unicodeToLower caseTable) queries db (domainRequest "Example.COM"))
          = [queries.map (fun q => ⟨q, ["example.com"]⟩)]
      ∧ sent (handler (unicodeToLower caseTable) queries db (domainRequest "example.com"))
          = [queries.map (fun q => ⟨q, ["example.com"]⟩)] := by
  obtain ⟨hq, hs, _, _, _⟩ := observe_nonempty (unicodeToLower caseTable) queries db ctx hne
  refine ⟨hq, hs, ?_, ?_, ?_⟩
  · intro db' ctx' hne' hcase
    have hkey : lookupKey (unicodeToLower caseTable) ctx'
        = lookupKey (unicodeToLower caseTable) ctx := by
      simp only [lookupKey, ToLower,
        map_unicodeToLower_of_differOnlyInCase caseTable _ _ hcase]
    obtain ⟨_, hs', _, _, _⟩ :=
      observe_nonempty (unicodeToLower caseTable) queries db' ctx' hne'
    constructor
    · rw [hs, hs', hkey]
    · intro hres
      have := handler_congr (unicodeToLower caseTable) queries db db' ctx ctx' hne hne'
        hkey hres
      rw [this]
      exact ⟨rfl, rfl, rfl⟩
  · exact (observe_nonempty (unicodeToLower caseTable) queries db
      (domainRequest "Example.COM") (by decide)).2.1
  · exact (observe_nonempty (unicodeToLower caseTable) queries db
      (domainRequest "example.com") (by decide)).2.1

/-- C4 on the requests `domain=Example.COM` and `domain=example.com`, with case tables
that leave every rune above ASCII unchanged: both submit the two scenario statements
bound to `example.com` and produce the same trace. -/
theorem handler_batch_normalized_witness :
    Peek (domainRequest "example.com").QueryArgs "domain" ≠ ""
      ∧ Peek (domainRequest "Example.COM").QueryArgs "domain" ≠ ""
      ∧ differOnlyInCase id (Peek (domainRequest "Example.COM").QueryArgs "domain").data
          (Peek (domainRequest "example.com").QueryArgs "domain").data = true
      ∧ sent (handler (unicodeToLower id) scenarioQueries scenarioDb
            (domainRequest "Example.COM"))
          = [[⟨"SELECT EXISTS (SELECT 1 FROM users WHERE domain = $1)", ["example.com"]⟩,
              ⟨"SELECT EXISTS (SELECT 1 FROM blocked WHERE domain = $1)", ["example.com"]⟩]]
      ∧ sent (handler (unicodeToLower id) scenarioQueries scenarioDb
            (domainRequest "Example.COM"))
          = sent (handler (unicodeToLower id) scenarioQueries scenarioDb
            (domainRequest "example.com"))
      ∧ handler (unicodeToLower id) scenarioQueries scenarioDb (domainRequest "Example.COM")
          = handler (unicodeToLower id) scenarioQueries scenarioDb
            (domainRequest "example.com") :=
  ⟨by decide, by decide, by decide,
    (handler_batch_normalized id scenarioQueries scenarioDb
      (domainRequest "Example.COM") (by decide)).2.1,
    ((handler_batch_normalized id scenarioQueries scenarioDb
      (domainRequest "example.com") (by decide)).2.2.1 scenarioDb
      (domainRequest "Example.COM") (by decide) (by decide)).1,
    (((handler_batch_normalized id scenarioQueries scenarioDb
      (domainRequest "example.com") (by decide)).2.2.1 scenarioDb
      (domainRequest "Example.COM") (by decide) (by decide)).2 (by decide)).1⟩

theorem getElem?_eq_of_take_eq {α : Type} (l l' : List α) (n j : Nat)
    (h : l'.take n = l.take n) (hj : j < n) : l'[j]? = l[j]? := by
  have h1 : (l'.take n)[j]? = l'[j]? := List.getElem?_take_of_lt hj
  have h2 : (l.take n)[j]? = l[j]? := List.getElem?_take_of_lt hj
  rw [← h1, ← h2, h]

theorem take_eq_of_take_succ_eq {α : Type} (l l' : List α) (k : Nat)
    (h : l'.take (k + 1) = l.take (k + 1)) : l'.take k = l.take k := by
  have h1 : ∀ m : List α, m.take k = (m.take (k + 1)).take k := by
    intro m
    rw [List.take_take, Nat.min_eq_left (Nat.le_succ k)]
  rw [h1 l', h1 l, h]

theorem handler_congr_of_take_eq (lower : Char → Char) (queries : List String) (db db' : Pool)
    (ctx : RequestCtx) (hne : Peek ctx.QueryArgs "domain" ≠ "") (k : Nat) (r : ScanResult)
    (hq : k < queries.length)
    (hk : (resultsOf lower queries db ctx)[k]? = some r)
    (hr : r ≠ ScanResult.ok false)
    (hpre : ∀ j : Nat, j < k →
      (resultsOf lower queries db ctx)[j]? = some (ScanResult.ok false))
    (htake : (resultsOf lower queries db' ctx).take (k + 1)
      = (resultsOf lower queries db ctx).take (k + 1)) :
    handler lower queries db' ctx = handler lower queries db ctx := by
  have hk' : (resultsOf lower queries db' ctx)[k]? = some r := by
    rw [getElem?_eq_of_take_eq _ _ (k + 1) k htake (Nat.lt_succ_self k)]
    exact hk
  have hpre' : ∀ j : Nat, j < k →
      (resultsOf lower queries db' ctx)[j]? = some (ScanResult.ok false) := by
    intro j hj
    rw [getElem?_eq_of_take_eq _ _ (k + 1) j htake (Nat.lt_succ_of_lt hj)]
    exact hpre j hj
  have htk := take_eq_of_take_succ_eq _ _ k htake
  cases r with
  | err d =>
    rw [trace_first_err lower queries db ctx hne k d hq hk hpre,
      trace_first_err lower queries db' ctx hne k d hq hk' hpre', htk]
  | ok b =>
    cases b with
    | false => exact absurd rfl hr
    | true =>
      rw [trace_first_true lower queries db ctx hne k hq hk hpre,
        trace_first_true lower queries db' ctx hne k hq hk' hpre', htk]

/-- C9: for every request with a non-empty domain whose batch yields one result per
query, the handler reads the results in statement order: when `k` is the index of the
first result that is true or a read error, the results read are exactly the first
`k + 1` results of the stream, and any pool whose stream agrees on those first
`k + 1` results yields the same trace, so later results are never read and influence
nothing; when every result is a successful false, all `len(queries)` results are
read. In particular, if the first result is true the outcome is 204 with an empty
body, nothing logged and a single read, whatever the later results are. -/
theorem handler_reads_in_order (lower : Char → Char) (queries : List String) (db : Pool)
    (ctx : RequestCtx) (hne : Peek ctx.QueryArgs "domain" ≠ "")
    (hlen : (resultsOf lower queries db ctx).length = queries.length) :
    (∀ (k : Nat) (r : ScanResult),
        (resultsOf lower queries db ctx)[k]? = some r → r ≠ ScanResult.ok false →
        (∀ j : Nat, j < k →
          (resultsOf lower queries db ctx)[j]? = some (ScanResult.ok false)) →
        scans (handler lower queries db ctx) = (resultsOf lower queries db ctx).take (k + 1)
          ∧ (scans (handler lower queries db ctx)).length = k + 1
          ∧ ∀ db' : Pool,
              (resultsOf lower queries db' ctx).take (k + 1)
                = (resultsOf lower queries db ctx).take (k + 1) →
              handler lower queries db' ctx = handler lower queries db ctx)
    ∧ ((∀ r ∈ resultsOf lower queries db ctx, r = ScanResult.ok false) →
        scans (handler lower queries db ctx) = resultsOf lower queries db ctx
          ∧ (scans (handler lower queries db ctx)).length = queries.length)
    ∧ ((resultsOf lower queries db ctx)[0]? = some (ScanResult.ok true) →
        statusCode (handler lower queries db ctx) = 204
          ∧ body (handler lower queries db ctx) = ""
          ∧ stderr (handler lower queries db ctx) = []
          ∧ scans (handler lower queries db ctx) = [ScanResult.ok true]) := by
  refine ⟨?_, ?_, ?_⟩
  · intro k r hk hr hpre
    have hkl : k < (resultsOf lower queries db ctx).length := lt_length_of_getElem? _ k _ hk
    have hq : k < queries.length := hlen ▸ hkl
    have hscans : scans (handler lower queries db ctx)
        = (resultsOf lower queries db ctx).take (k + 1) := by
      cases r with
      | err d => exact (observe_first_err lower queries db ctx hne k d hq hk hpre).2.2.2
      | ok b =>
        cases b with
        | false => exact absurd rfl hr
        | true => exact (observe_first_true lower queries db ctx hne k hq hk hpre).2.2.2
    refine ⟨hscans, ?_, ?_⟩
    · rw [hscans, List.length_take]
      omega
    · intro db' htake
      exact handler_congr_of_take_eq lower queries db db' ctx hne k r hq hk hr hpre htake
  · intro hall
    have h := (observe_all_false lower queries db ctx hne hlen hall).2.2.2
    exact ⟨h, by rw [h, hlen]⟩
  · intro h0
    have hq : 0 < queries.length := hlen ▸ lt_length_of_getElem? _ 0 _ h0
    obtain ⟨h1, h2, h3, h4⟩ := observe_first_true lower queries db ctx hne 0 hq h0
      (fun j hj => absurd hj (Nat.not_lt_zero j))
    refine ⟨statusCode_of_single _ _ h1, body_of_no_write _ h2, h3, ?_⟩
    rw [h4, take_succ_of_getElem? _ 0 _ h0]
    rfl

/-- C9 on two statements whose results are true then the error "boom": one result is
read, the answer is 204 and nothing is logged. -/
theorem handler_reads_in_order_witness :
    Peek (domainRequest "example.com").QueryArgs "domain" ≠ ""
      ∧ statusCode (handler Char.toLower scenarioQueries
          (fixedDb [ScanResult.ok true, ScanResult.err "boom"])
          (domainRequest "example.com")) = 204
      ∧ body (handler Char.toLower scenarioQueries
          (fixedDb [ScanResult.ok true, ScanResult.err "boom"])
          (domainRequest "example.com")) = ""
      ∧ stderr (handler Char.toLower scenarioQueries
          (fixedDb [ScanResult.ok true, ScanResult.err "boom"])
          (domainRequest "example.com")) = []
      ∧ scans (handler Char.toLower scenarioQueries
          (fixedDb [ScanResult.ok true, ScanResult.err "boom"])
          (domainRequest "example.com")) = [ScanResult.ok true] :=
  ⟨by decide,
    (handler_reads_in_order Char.toLower scenarioQueries
      (fixedDb [ScanResult.ok true, ScanResult.err "boom"]) (domainRequest "example.com")
      (by decide) (by decide)).2.2 (by decide)⟩

/-- C10: for every request with a non-empty domain the handler sets the status exactly
once, to 204, 404 or 500, obtains exactly one batch result stream from the pool and
releases it exactly once, as its last action before returning, whichever way the
loop ends; for a request with an empty domain the status is set once, to 400, no
stream is obtained and none is released. -/
theorem handler_one_outcome_one_release (lower : Char → Char) (queries : List String)
    (db : Pool) (ctx : RequestCtx) :
    (Peek ctx.QueryArgs "domain" ≠ "" →
      (statusCodes (handler lower queries db ctx) = [204]
          ∨ statusCodes (handler lower queries db ctx) = [404]
          ∨ statusCodes (handler lower queries db ctx) = [500])
        ∧ (sent (handler lower queries db ctx)).length = 1
        ∧ closes (handler lower queries db ctx) = 1
        ∧ (handler lower queries db ctx).getLast? = some Event.Close)
    ∧ (Peek ctx.QueryArgs "domain" = "" →
      statusCodes (handler lower queries db ctx) = [400]
        ∧ sent (handler lower queries db ctx) = []
        ∧ closes (handler lower queries db ctx) = 0) := by
  constructor
  · intro hne
    obtain ⟨_, hs, hc, hl, hst⟩ := observe_nonempty lower queries db ctx hne
    exact ⟨hst, by rw [hs]; rfl, hc, hl⟩
  · intro he
    rw [handler_empty lower queries db ctx he]
    exact ⟨rfl, rfl, rfl⟩

/-- C10 on the three ways the loop ends (first true, first read error, all false) and on
the request with an empty domain. -/
theorem handler_one_outcome_one_release_witness :
    (statusCodes (handler Char.toLower scenarioQueries
          (fixedDb [ScanResult.ok false, ScanResult.ok true])
          (domainRequest "example.com")) = [204]
      ∧ closes (handler Char.toLower scenarioQueries
          (fixedDb [ScanResult.ok false, ScanResult.ok true])
          (domainRequest "example.com")) = 1)
    ∧ (statusCodes (handler Char.toLower scenarioQueries
          (fixedDb [ScanResult.err "boom", ScanResult.ok true])
          (domainRequest "example.com")) = [500]
      ∧ closes (handler Char.toLower scenarioQueries
          (fixedDb [ScanResult.err "boom", ScanResult.ok true])
          (domainRequest "example.com")) = 1)
    ∧ (statusCodes (handler Char.toLower scenarioQueries
          (fixedDb [ScanResult.ok false, ScanResult.ok false])
          (domainRequest "example.com")) = [404]
      ∧ closes (handler Char.toLower scenarioQueries
          (fixedDb [ScanResult.ok false, ScanResult.ok false])
          (domainRequest "example.com")) = 1)
    ∧ closes (handler Char.toLower scenarioQueries scenarioDb (domainRequest "")) = 0 :=
  ⟨⟨by decide, ((handler_one_outcome_one_release Char.toLower scenarioQueries
      (fixedDb [ScanResult.ok false, ScanResult.ok true])
      (domainRequest "example.com")).1 (by decide)).2.2.1⟩,
   ⟨by decide, ((handler_one_outcome_one_release Char.toLower scenarioQueries
      (fixedDb [ScanResult.err "boom", ScanResult.ok true])
      (domainRequest "example.com")).1 (by decide)).2.2.1⟩,
   ⟨by decide, ((handler_one_outcome_one_release Char.toLower scenarioQueries
      (fixedDb [ScanResult.ok false, ScanResult.ok false])
      (domainRequest "example.com")).1 (by decide)).2.2.1⟩,
   ((handler_one_outcome_one_release Char.toLower scenarioQueries scenarioDb
      (domainRequest "")).2 (by decide)).2.2⟩

end OnDemandTlsPg
